import Mathlib

/-!
Shallow embedding of the connection-supervision and delivery-consistency core of
src/main.js (signal-bots, Node.js). JS objects keyed by bot phone are modelled as
association lists over String keys, preserving insertion order exactly as JS object
property order does. Side effects (scheduling timers, dispatching to the message
handler, enqueueing replays, closing and opening sockets) are modelled as an explicit
list of emitted actions.
-/

namespace SignalBots

/-- The fields of a dataMessage that the core reads: the mention list (each mention
may or may not carry a uuid) and the quote author uuid, collapsed from
`quote && quote.authorUuid` in main.js. -/
structure DataMsg where
  mentions : List (Option String)
  quoteAuthorUuid : Option String
deriving DecidableEq, Repr

/-- The envelope fields read by main.js: `source`, `sourceNumber`, `timestamp`,
`dataMessage`. Absent fields are `none`. -/
structure Envelope where
  source : Option String
  sourceNumber : Option String
  timestamp : Option Nat
  dataMessage : Option DataMsg
deriving DecidableEq, Repr

/-- A decoded inbound message (`message` in main.js); `envelope` may be absent. -/
structure RawMsg where
  envelope : Option Envelope
deriving DecidableEq, Repr

/-- One entry of `websocketState` in main.js: the open socket handle (modelled as a
numeric id), the bot display name, the connected flag, the last-message timestamp
and the retry counter. -/
structure ConnState where
  ws : Option Nat
  botName : String
  connected : Bool
  lastMessage : Nat
  retryCount : Nat
deriving DecidableEq, Repr

/-- One entry of `lastUserMessage` in main.js: creation time, the set of bot phones
that observed the message (insertion order, deduplicated), the one-shot
`checkScheduled` flag, the original payload and the mentioned or quoted bot uuids. -/
structure TrackedMsg where
  timestamp : Nat
  receivedBy : List String
  checkScheduled : Bool
  data : RawMsg
  mentionedBotUuids : List String
deriving DecidableEq, Repr

/-- The three global mutable registries of main.js. -/
structure SysState where
  websocketState : List (String × ConnState)
  lastUserMessage : List (String × TrackedMsg)
  pendingMessages : List (String × List RawMsg)
deriving DecidableEq, Repr

/-- The observable side effects of the core, emitted as an explicit trace:
scheduling the 3-second consistency check, invoking the Dispatcher
(`processMessage(message, botPhone, isFirstReceiver)`), pushing a payload onto a
replay queue, the forced close of a live socket (setting `connected=false` and
calling `ws.close()`), closing a stale handle, opening a fresh socket, and
scheduling a reconnect attempt after a delay in milliseconds. -/
inductive Action where
  | schedule (messageId : String)
  | process (msg : RawMsg) (phone : String) (isFirstReceiver : Bool)
  | enqueueReplay (phone : String) (payload : RawMsg)
  | forceReconnect (phone : String)
  | closeWs (phone : String)
  | openNew (phone : String)
  | scheduleReconnect (phone : String) (delayMs : Nat)
deriving DecidableEq, Repr

/-- JS object property read: first entry with the given key. -/
def lookupA {α : Type} : List (String × α) → String → Option α
  | [], _ => none
  | a :: l, k => if a.1 == k then some a.2 else lookupA l k

/-- JS object property write: replace in place when the key exists, append at the
end otherwise (JS objects keep insertion order). -/
def setA {α : Type} : List (String × α) → String → α → List (String × α)
  | [], k, v => [(k, v)]
  | a :: l, k, v => if a.1 == k then (k, v) :: l else a :: setA l k v

/-- JS `Set.add`: append unless already present (insertion order, no duplicates). -/
def insertUniq (l : List String) (x : String) : List String :=
  if x ∈ l then l else l ++ [x]

theorem lookupA_setA_self {α : Type} (l : List (String × α)) (k : String) (v : α) :
    lookupA (setA l k v) k = some v := by
  induction l with
  | nil => simp [lookupA, setA]
  | cons a l ih =>
    by_cases h : a.1 = k
    · simp [lookupA, setA, h]
    · simp [lookupA, setA, h, ih]

theorem lookupA_setA_ne {α : Type} (l : List (String × α)) (k k' : String) (v : α)
    (h : k' ≠ k) : lookupA (setA l k v) k' = lookupA l k' := by
  have hk : ¬k = k' := fun hh => h hh.symm
  induction l with
  | nil => simp [lookupA, setA, hk]
  | cons a l ih =>
    by_cases ha : a.1 = k
    · subst ha
      simp [lookupA, setA, hk, h]
    · simp only [setA, beq_iff_eq, ha, if_false, lookupA]
      by_cases ha' : a.1 = k'
      · simp [ha']
      · simp [ha', ih]

theorem lookupA_isSome_of_mem_keys {α : Type} (l : List (String × α)) (k : String)
    (h : k ∈ l.map (fun p => p.1)) : (lookupA l k).isSome := by
  induction l with
  | nil => simp at h
  | cons a l ih =>
    by_cases ha : a.1 = k
    · simp [lookupA, ha]
    · simp only [List.map_cons, List.mem_cons] at h
      rcases h with h | h
      · exact absurd h.symm ha
      · simp [lookupA, ha, ih h]

theorem mem_of_lookupA_eq_some {α : Type} (l : List (String × α)) (k : String) (v : α)
    (h : lookupA l k = some v) : (k, v) ∈ l := by
  induction l with
  | nil => simp [lookupA] at h
  | cons a l ih =>
    by_cases ha : a.1 = k
    · simp only [lookupA, ha, beq_self_eq_true, if_true, Option.some.injEq] at h
      have hav : (k, v) = a := by
        obtain ⟨a1, a2⟩ := a
        simp_all
      rw [hav]
      exact List.mem_cons_self _ _
    · simp only [lookupA, beq_iff_eq, ha, if_false] at h
      exact List.mem_cons_of_mem _ (ih h)

theorem mem_insertUniq (l : List String) (x y : String) :
    y ∈ insertUniq l x ↔ y ∈ l ∨ y = x := by
  unfold insertUniq
  by_cases h : x ∈ l
  · simp only [h, if_true]
    constructor
    · exact Or.inl
    · rintro (hy | rfl) <;> assumption
  · simp [h]

theorem insertUniq_nodup (l : List String) (x : String) (h : l.Nodup) :
    (insertUniq l x).Nodup := by
  unfold insertUniq
  by_cases hx : x ∈ l
  · simpa [hx]
  · simp only [hx, if_false]
    rw [List.nodup_append]
    exact ⟨h, List.nodup_singleton x, by
      intro a ha hb
      simp only [List.mem_singleton] at hb
      subst hb
      exact hx ha⟩

/-- `MAX_RECONNECT_RETRIES` in main.js. -/
def MAX_RECONNECT_RETRIES : Nat := 3

/-- Retention window of the tracking GC in `checkWebSocketHealth`: 5 minutes. -/
def TRACKING_RETENTION_MS : Nat := 5 * 60 * 1000

/-- Staleness threshold of the health sweep: 5 minutes with no message. -/
def STALE_THRESHOLD_MS : Nat := 5 * 60 * 1000

/-- The literal delay passed to `setTimeout` in the close handler of
`createWebSocket` (main.js line 135). -/
def CLOSE_RECONNECT_DELAY_MS : Nat := 1000

/-- `message.envelope || {}`. -/
def envOf (m : RawMsg) : Envelope :=
  m.envelope.getD ⟨none, none, none, none⟩

/-- `envelope.source || envelope.sourceNumber || 'unknown'`. -/
def sourceOf (m : RawMsg) : String :=
  ((envOf m).source <|> (envOf m).sourceNumber).getD "unknown"

/-- `envelope.timestamp || 'unknown'`: the timestamp used for tracking, `none`
standing for the string 'unknown'; a numeric 0 is falsy in JS and also yields
'unknown'. -/
def tsOf (m : RawMsg) : Option Nat :=
  match (envOf m).timestamp with
  | some t => if t = 0 then none else some t
  | none => none

/-- The bot-authorship test of `createMessageHandler`: the loop over
`Object.values(websocketState)` sets `isBotMessage` when
`source === state.botName || source === botPhone`; note that the second disjunct
compares against the receiving handler phone and that nothing is matched when
`websocketState` is empty. -/
def isBotMessage (st : SysState) (botPhone source : String) : Bool :=
  st.websocketState.any (fun p => source == p.2.botName || source == botPhone)

/-- Modelled from the spec (section 4.2 classification rule, chosen as canonical in
the design notes but absent from main.js): a message is bot-authored iff its sender
identifier or its resolved sender UUID matches any configured BotIdentity. Used only
to compare the specified rule with `isBotMessage`. -/
def isBotMessageSpec (st : SysState) (getBotUuid : String → Option String)
    (source : String) : Bool :=
  st.websocketState.any (fun p => source == p.1 || some source == getBotUuid p.1)

/-- Modelled from the spec (section 4.1 `onClose`, adopted by the design notes but
absent from main.js): backoff delay `min(base * 2^retryCount, capMs)` with base
1000 ms and cap 30000 ms. Used only to compare the specified backoff rule with the
literal delay in the close handler. -/
def backoffDelaySpec (retryCount : Nat) : Nat :=
  min (1000 * 2 ^ retryCount) 30000

/-- Collect `mention.uuid` for each mention, then `quote.authorUuid`, into the JS
Set `mentionedBotUuids` (insertion order, deduplicated). -/
def mentionedUuidsOf (m : RawMsg) : List String :=
  let d := (envOf m).dataMessage.getD ⟨[], none⟩
  let s := d.mentions.foldl
    (fun acc o => match o with
      | some u => insertUniq acc u
      | none => acc) []
  match d.quoteAuthorUuid with
  | some q => insertUniq s q
  | none => s

/-- Lines 15-17 of main.js: refresh `websocketState[botPhone].lastMessage` when the
entry exists. -/
def touchLastMessage (st : SysState) (botPhone : String) (now : Nat) : SysState :=
  match lookupA st.websocketState botPhone with
  | some cs =>
    { st with websocketState := setA st.websocketState botPhone { cs with lastMessage := now } }
  | none => st

/-- Lines 58-75 of main.js, acting on `lastUserMessage`: create the entry on first
sighting, add the receiving phone to `receivedBy`, and when this call created the
entry and `checkScheduled` is still false, set the flag and schedule the 3-second
consistency check. Returns the updated registry, the `isFirstReceiverForMessage`
flag and the emitted actions. -/
def trackUserMessage (lum0 : List (String × TrackedMsg)) (botPhone : String)
    (now : Nat) (message : RawMsg) (messageId : String) :
    List (String × TrackedMsg) × Bool × List Action :=
  let first :=
    match lookupA lum0 messageId with
    | none =>
      (setA lum0 messageId ⟨now, [], false, message, mentionedUuidsOf message⟩, true)
    | some _ => (lum0, false)
  let lum2 :=
    match lookupA first.1 messageId with
    | some e => setA first.1 messageId { e with receivedBy := insertUniq e.receivedBy botPhone }
    | none => first.1
  match lookupA lum2 messageId with
  | some e =>
    if first.2 && !e.checkScheduled then
      (setA lum2 messageId { e with checkScheduled := true }, first.2, [Action.schedule messageId])
    else (lum2, first.2, [])
  | none => (lum2, first.2, [])

/-- The message handler returned by `createMessageHandler(botPhone)`. `data = none`
stands for a payload on which `JSON.parse` throws a SyntaxError; the handler
catches it, logs and returns. The last-message refresh happens before decoding.
Consistency tracking runs only for decodable messages that carry a usable
timestamp and are not classified as bot-authored; the Dispatcher
(`processMessage`) is invoked for every decodable message. -/
def handleMessage (st : SysState) (botPhone : String) (now : Nat)
    (data : Option RawMsg) : SysState × List Action :=
  let st1 := touchLastMessage st botPhone now
  match data with
  | none => (st1, [])
  | some message =>
    match tsOf message with
    | none => (st1, [Action.process message botPhone false])
    | some t =>
      if isBotMessage st1 botPhone (sourceOf message) then
        (st1, [Action.process message botPhone false])
      else
        let messageId := sourceOf message ++ ":" ++ toString t
        let tr := trackUserMessage st1.lastUserMessage botPhone now message messageId
        ({ st1 with lastUserMessage := tr.1 },
         tr.2.2 ++ [Action.process message botPhone tr.2.1])

/-- `Object.keys(websocketState)` — all configured bot phones. -/
def allBotsOf (st : SysState) : List String :=
  st.websocketState.map (fun p => p.1)

/-- The `botUuidToPhone` map built in `checkMessageConsistency` from
`getBotUuid(phone)` over all phones. -/
def botUuidToPhoneOf (getBotUuid : String → Option String) (st : SysState) :
    List (String × String) :=
  st.websocketState.foldl
    (fun acc p =>
      match getBotUuid p.1 with
      | some u => setA acc u p.1
      | none => acc) []

/-- `missingBots`: all bot phones minus `receivedBy`, in key order. -/
def missingBotsOf (st : SysState) (msgData : TrackedMsg) : List String :=
  (allBotsOf st).filter (fun p => !(msgData.receivedBy.contains p))

/-- `mentionedMissingBots`: mentioned uuids resolved through `botUuidToPhone`,
kept when the phone is missing. -/
def mentionedMissingBotsOf (getBotUuid : String → Option String) (st : SysState)
    (msgData : TrackedMsg) : List String :=
  msgData.mentionedBotUuids.foldl
    (fun acc u =>
      match lookupA (botUuidToPhoneOf getBotUuid st) u with
      | some p => if (missingBotsOf st msgData).contains p then insertUniq acc p else acc
      | none => acc) []

/-- The per-phone body of the reconnection loop in `checkMessageConsistency`
(lines 242-263 of main.js): push the payload onto `pendingMessages[botPhone]`,
then, when the state entry and its socket exist, set `connected = false` and close
the socket (the inlined force-reconnect). -/
def reconnectMissingStep (d : RawMsg) (acc : SysState × List Action)
    (botPhone : String) : SysState × List Action :=
  let st0 := acc.1
  let pend := (lookupA st0.pendingMessages botPhone).getD []
  let st1 := { st0 with pendingMessages := setA st0.pendingMessages botPhone (pend ++ [d]) }
  let acts := acc.2 ++ [Action.enqueueReplay botPhone d]
  match lookupA st1.websocketState botPhone with
  | some cs =>
    match cs.ws with
    | some _ =>
      ({ st1 with websocketState := setA st1.websocketState botPhone { cs with connected := false } },
       acts ++ [Action.forceReconnect botPhone])
    | none => (st1, acts)
  | none => (st1, acts)

/-- `checkMessageConsistency(messageId)` of main.js: a no-op when the tracked
entry no longer exists; otherwise compute the missing and mentioned-missing
phones and, when some bot missed the message and some mentioned bot missed it,
run the reconnection loop over the mentioned-missing phones. -/
def checkMessageConsistency (getBotUuid : String → Option String) (st : SysState)
    (messageId : String) : SysState × List Action :=
  match lookupA st.lastUserMessage messageId with
  | none => (st, [])
  | some msgData =>
    if 0 < (missingBotsOf st msgData).length then
      if 0 < (mentionedMissingBotsOf getBotUuid st msgData).length then
        (mentionedMissingBotsOf getBotUuid st msgData).foldl
          (reconnectMissingStep msgData.data) (st, [])
      else (st, [])
    else (st, [])

/-- `reconnectWebSocket(botPhone, botName)` of main.js: a no-op when the phone is
unknown or already connected; when `retryCount` has reached
`MAX_RECONNECT_RETRIES`, give up and reset the counter to 0; otherwise increment
the counter, close the old socket when present, and open a fresh one (modelled by
storing the supplied fresh handle id). -/
def reconnectWebSocket (st : SysState) (botPhone : String) (newHandle : Nat) :
    SysState × List Action :=
  match lookupA st.websocketState botPhone with
  | none => (st, [])
  | some cs =>
    if cs.connected then (st, [])
    else if MAX_RECONNECT_RETRIES ≤ cs.retryCount then
      ({ st with websocketState := setA st.websocketState botPhone { cs with retryCount := 0 } }, [])
    else
      let cs1 := { cs with retryCount := cs.retryCount + 1, ws := some newHandle }
      ({ st with websocketState := setA st.websocketState botPhone cs1 },
       (match cs.ws with
        | some _ => [Action.closeWs botPhone]
        | none => []) ++ [Action.openNew botPhone])

/-- The open handler of `createWebSocket`: set `connected = true`, refresh
`lastMessage`, zero `retryCount`, then drain `pendingMessages[botPhone]` by
snapshotting it, emptying it and re-submitting every entry through
`processMessage(msg, botPhone, false)` in order. -/
def onOpen (st : SysState) (botPhone : String) (now : Nat) : SysState × List Action :=
  let st1 :=
    match lookupA st.websocketState botPhone with
    | some cs =>
      let cs1 := { cs with connected := true, lastMessage := now, retryCount := 0 }
      { st with websocketState := setA st.websocketState botPhone cs1 }
    | none => st
  match lookupA st1.pendingMessages botPhone with
  | some msgs =>
    if 0 < msgs.length then
      ({ st1 with pendingMessages := setA st1.pendingMessages botPhone [] },
       msgs.map (fun m => Action.process m botPhone false))
    else (st1, [])
  | none => (st1, [])

/-- The error handler of `createWebSocket`: set `connected = false`, nothing else. -/
def onError (st : SysState) (botPhone : String) : SysState × List Action :=
  match lookupA st.websocketState botPhone with
  | some cs =>
    ({ st with websocketState := setA st.websocketState botPhone { cs with connected := false } }, [])
  | none => (st, [])

/-- The close handler of `createWebSocket`: set `connected = false` and schedule a
reconnect attempt after the literal 1000 ms delay. -/
def onClose (st : SysState) (botPhone : String) : SysState × List Action :=
  ((match lookupA st.websocketState botPhone with
    | some cs =>
      { st with websocketState := setA st.websocketState botPhone { cs with connected := false } }
    | none => st),
   [Action.scheduleReconnect botPhone CLOSE_RECONNECT_DELAY_MS])

/-- One iteration of the stale-connection loop in `checkWebSocketHealth`: when the
snapshot entry claims `connected` with a truthy `lastMessage` older than the
staleness threshold, call `reconnectWebSocket`. -/
def sweepStep (now : Nat) (acc : SysState × List Action)
    (entry : String × ConnState) : SysState × List Action :=
  if entry.2.connected && entry.2.lastMessage != 0
      && decide (STALE_THRESHOLD_MS < now - entry.2.lastMessage) then
    let r := reconnectWebSocket acc.1 entry.1 0
    (r.1, acc.2 ++ r.2)
  else acc

/-- One tick of the `setInterval` body of `checkWebSocketHealth`: garbage-collect
tracked messages older than the retention window, then run the stale-connection
check over every websocket entry. -/
def healthSweep (st : SysState) (now : Nat) : SysState × List Action :=
  let st1 := { st with lastUserMessage :=
    st.lastUserMessage.filter (fun p => !(decide (TRACKING_RETENTION_MS < now - p.2.timestamp))) }
  st1.websocketState.foldl (sweepStep now) (st1, [])

/-- The lifecycle events that can hit one identity: a successful open, a close, a
transport error, a fired reconnect timer (with the fresh handle id it would
create) and an inbound frame. -/
inductive Ev where
  | evOpen (now : Nat)
  | evClose
  | evError
  | evReconnect (newHandle : Nat)
  | evMessage (now : Nat) (data : Option RawMsg)
deriving DecidableEq, Repr

/-- Dispatch one lifecycle event for one identity to the handler main.js wires for
it. -/
def stepEv (st : SysState) (phone : String) (e : Ev) : SysState × List Action :=
  match e with
  | Ev.evOpen now => onOpen st phone now
  | Ev.evClose => onClose st phone
  | Ev.evError => onError st phone
  | Ev.evReconnect h => reconnectWebSocket st phone h
  | Ev.evMessage now d => handleMessage st phone now d

/-- Sequential processing of inbound frames by the single-threaded event loop:
each element is (receiving phone, arrival time, decoded payload or decode
failure). -/
def runHandlers : SysState → List (String × Nat × Option RawMsg) → SysState × List Action
  | st, [] => (st, [])
  | st, e :: evs =>
    let r1 := handleMessage st e.1 e.2.1 e.2.2
    let r2 := runHandlers r1.1 evs
    (r2.1, r1.2 ++ r2.2)

/-- The retry counter of one identity (`retryCount || 0`). -/
def retryCountOf (st : SysState) (phone : String) : Nat :=
  match lookupA st.websocketState phone with
  | some cs => cs.retryCount
  | none => 0

/-- The replay queue of one identity (`pendingMessages[phone] || []`). -/
def queueOf (st : SysState) (phone : String) : List RawMsg :=
  (lookupA st.pendingMessages phone).getD []

theorem insertUniq_nil (x : String) : insertUniq [] x = [x] := by
  simp [insertUniq]

theorem self_mem_insertUniq (l : List String) (x : String) : x ∈ insertUniq l x := by
  rw [mem_insertUniq]
  exact Or.inr rfl

theorem touch_lum (st : SysState) (p : String) (n : Nat) :
    (touchLastMessage st p n).lastUserMessage = st.lastUserMessage := by
  unfold touchLastMessage
  cases lookupA st.websocketState p <;> rfl

theorem touch_pending (st : SysState) (p : String) (n : Nat) :
    (touchLastMessage st p n).pendingMessages = st.pendingMessages := by
  unfold touchLastMessage
  cases lookupA st.websocketState p <;> rfl

theorem retryCountOf_touch (st : SysState) (p q : String) (n : Nat) :
    retryCountOf (touchLastMessage st p n) q = retryCountOf st q := by
  unfold touchLastMessage retryCountOf
  cases h : lookupA st.websocketState p with
  | none => rfl
  | some cs =>
    by_cases hq : q = p
    · subst hq
      rw [lookupA_setA_self, h]
    · rw [lookupA_setA_ne _ _ _ _ hq]

theorem handleMessage_websocketState (st : SysState) (p : String) (n : Nat)
    (d : Option RawMsg) :
    (handleMessage st p n d).1.websocketState = (touchLastMessage st p n).websocketState := by
  cases d with
  | none => rfl
  | some m =>
    simp only [handleMessage]
    cases tsOf m with
    | none => rfl
    | some t =>
      by_cases hb : isBotMessage (touchLastMessage st p n) p (sourceOf m) <;> simp [hb]

/-- A decodable message with no envelope timestamp (fixture). -/
def msgNoTs : RawMsg := ⟨some ⟨some "+U", none, none, none⟩⟩

/-- The empty registry state (fixture). -/
def stEmpty : SysState := ⟨[], [], []⟩

/-- Fixture for the reconnect-budget counterexample: disconnected, retryCount
already at the maximum. -/
def stC2a : SysState := ⟨[("p", ⟨some 1, "P", false, 0, 3⟩)], [], []⟩

/-- Fixture: disconnected, retryCount one below the maximum, same instant. -/
def stC2b : SysState := ⟨[("p", ⟨some 1, "P", false, 0, 2⟩)], [], []⟩

/-- Fixture for the backoff counterexample: disconnected with retryCount 1. -/
def stC3 : SysState := ⟨[("p", ⟨some 1, "P", false, 0, 1⟩)], [], []⟩

/-- Fixture for the stale-sweep bug: connected, last message at time 1. -/
def stC4 : SysState := ⟨[("p", ⟨some 1, "P", true, 1, 0⟩)], [], []⟩

/-- C9: for every inbound frame whose payload fails to decode, the handler logs
and drops the message: no action is emitted (the Dispatcher is not invoked and
nothing is scheduled or retried), the tracking registry and the replay queues are
untouched, and the handler returns normally (it is a total function). -/
theorem C9_decode_drop (st : SysState) (botPhone : String) (now : Nat) :
    (handleMessage st botPhone now none).2 = [] ∧
    (handleMessage st botPhone now none).1.lastUserMessage = st.lastUserMessage ∧
    (handleMessage st botPhone now none).1.pendingMessages = st.pendingMessages := by
  refine ⟨rfl, ?_, ?_⟩
  · exact touch_lum st botPhone now
  · exact touch_pending st botPhone now

/-- C10: for every inbound message whose envelope carries no timestamp field,
consistency tracking is skipped entirely (the tracking registry is unchanged, so
no TrackedMessage is created, no receivedBy entry is added and nothing is
scheduled), yet the Dispatcher is still invoked with isFirstReceiver = false. -/
theorem C10_no_timestamp (st : SysState) (botPhone : String) (now : Nat)
    (msg : RawMsg) (h : (envOf msg).timestamp = none) :
    (handleMessage st botPhone now (some msg)).2 = [Action.process msg botPhone false] ∧
    (handleMessage st botPhone now (some msg)).1.lastUserMessage = st.lastUserMessage := by
  have ht : tsOf msg = none := by simp [tsOf, h]
  constructor
  · simp [handleMessage, ht]
  · simp [handleMessage, ht, touch_lum]

theorem C10_no_timestamp_witness :
    (handleMessage stEmpty "+1" 5 (some msgNoTs)).2 = [Action.process msgNoTs "+1" false] ∧
    (handleMessage stEmpty "+1" 5 (some msgNoTs)).1.lastUserMessage = stEmpty.lastUserMessage :=
  C10_no_timestamp stEmpty "+1" 5 msgNoTs (by decide)

/-- C3 (amended): the delay scheduled by the close handler before the reconnect
attempt is the constant 1000 ms, independent of retryCount, hence trivially
non-decreasing in retryCount and within the 30000 ms cap. -/
theorem C3_close_delay (st : SysState) (phone : String) :
    (onClose st phone).2 = [Action.scheduleReconnect phone 1000] ∧
    CLOSE_RECONNECT_DELAY_MS = 1000 ∧ CLOSE_RECONNECT_DELAY_MS ≤ 30000 := by
  exact ⟨rfl, rfl, by norm_num [CLOSE_RECONNECT_DELAY_MS]⟩

/-- C3 counterexample: at retryCount 1 the claim prescribes a delay of
min(1000 * 2^1, 30000) = 2000 ms, but the close handler schedules the reconnect
after 1000 ms. -/
theorem C3_close_delay_counterexample :
    retryCountOf stC3 "p" = 1 ∧
    (onClose stC3 "p").2 = [Action.scheduleReconnect "p" 1000] ∧
    backoffDelaySpec 1 = 2000 ∧ (1000 : Nat) ≠ 2000 := by decide

/-- C4 (code bug): an identity that is connected with a last message 6 minutes
old is stale, yet a health-sweep run changes nothing and emits no action: the
sweep calls reconnectWebSocket, which returns at its already-connected guard, so
the stale connection is never actually cycled. -/
theorem C4_stale_sweep_noop :
    lookupA stC4.websocketState "p" = some ⟨some 1, "P", true, 1, 0⟩ ∧
    STALE_THRESHOLD_MS < 360002 - 1 ∧
    healthSweep stC4 360002 = (stC4, []) := by decide

/-- C2 (amended): reconnect is a no-op when already connected; when retryCount
has reached MAX_RECONNECT_RETRIES (3) the cycle is abandoned — retryCount is
reset to zero and no new connection is opened (no further automatic attempts
until an external trigger); otherwise retryCount is incremented, the stale
handle, when present, is closed, and a new connection is opened. The decision
depends only on retryCount: reconnectWebSocket takes no clock input and no
firstRetryAt timestamp exists in the state. -/
theorem C2_reconnect_budget (st : SysState) (phone : String) (h : Nat)
    (cs : ConnState) (hl : lookupA st.websocketState phone = some cs) :
    (cs.connected = true → reconnectWebSocket st phone h = (st, [])) ∧
    (cs.connected = false → MAX_RECONNECT_RETRIES ≤ cs.retryCount →
      (reconnectWebSocket st phone h).2 = [] ∧
      retryCountOf (reconnectWebSocket st phone h).1 phone = 0) ∧
    (cs.connected = false → cs.retryCount < MAX_RECONNECT_RETRIES →
      retryCountOf (reconnectWebSocket st phone h).1 phone = cs.retryCount + 1 ∧
      Action.openNew phone ∈ (reconnectWebSocket st phone h).2 ∧
      (cs.ws.isSome = true → Action.closeWs phone ∈ (reconnectWebSocket st phone h).2) ∧
      (lookupA (reconnectWebSocket st phone h).1.websocketState phone).map ConnState.ws =
        some (some h)) := by
  refine ⟨?_, ?_, ?_⟩
  · intro hc
    simp [reconnectWebSocket, hl, hc]
  · intro hc hr
    simp [reconnectWebSocket, hl, hc, hr, retryCountOf, lookupA_setA_self]
  · intro hc hr
    have hr' : ¬ MAX_RECONNECT_RETRIES ≤ cs.retryCount := Nat.not_le.mpr hr
    refine ⟨?_, ?_, ?_, ?_⟩
    · simp [reconnectWebSocket, hl, hc, hr', retryCountOf, lookupA_setA_self]
    · simp [reconnectWebSocket, hl, hc, hr']
    · intro hws
      obtain ⟨w, hw⟩ := Option.isSome_iff_exists.mp hws
      simp [reconnectWebSocket, hl, hc, hr', hw]
    · simp [reconnectWebSocket, hl, hc, hr', lookupA_setA_self]

theorem C2_reconnect_budget_witness :
    retryCountOf (reconnectWebSocket stC2b "p" 7).1 "p" = 3 ∧
    Action.openNew "p" ∈ (reconnectWebSocket stC2b "p" 7).2 ∧
    reconnectWebSocket stC2a "p" 7 =
      ({ stC2a with websocketState := [("p", ⟨some 1, "P", false, 0, 0⟩)] }, []) := by
  have hb := C2_reconnect_budget stC2b "p" 7 ⟨some 1, "P", false, 0, 2⟩ (by decide)
  have h3 := hb.2.2 (by decide) (by decide)
  exact ⟨h3.1, h3.2.1, by decide⟩

/-- C2 counterexample: two states at the same instant, identical except for
retryCount, one at 3 and one at 2; reconnect abandons the first (resets the
counter, opens nothing) and proceeds with the second. Abandonment is therefore
decided by the attempt count alone, not by elapsed time since a first retry, and
no firstRetryAt stamp is involved. -/
theorem C2_reconnect_budget_counterexample :
    (reconnectWebSocket stC2a "p" 7).2 = [] ∧
    retryCountOf (reconnectWebSocket stC2a "p" 7).1 "p" = 0 ∧
    (reconnectWebSocket stC2b "p" 7).2 = [Action.closeWs "p", Action.openNew "p"] ∧
    retryCountOf (reconnectWebSocket stC2b "p" 7).1 "p" = 3 := by decide

theorem track_new (lum0 : List (String × TrackedMsg)) (p : String) (now : Nat)
    (m : RawMsg) (mid : String) (h : lookupA lum0 mid = none) :
    lookupA (trackUserMessage lum0 p now m mid).1 mid =
      some ⟨now, [p], true, m, mentionedUuidsOf m⟩ ∧
    (trackUserMessage lum0 p now m mid).2 = (true, [Action.schedule mid]) := by
  simp [trackUserMessage, h, lookupA_setA_self, insertUniq_nil]

theorem track_old (lum0 : List (String × TrackedMsg)) (p : String) (now : Nat)
    (m : RawMsg) (mid : String) (e : TrackedMsg) (h : lookupA lum0 mid = some e) :
    lookupA (trackUserMessage lum0 p now m mid).1 mid =
      some { e with receivedBy := insertUniq e.receivedBy p } ∧
    (trackUserMessage lum0 p now m mid).2 = (false, []) := by
  simp [trackUserMessage, h, lookupA_setA_self]

theorem track_other (lum0 : List (String × TrackedMsg)) (p : String) (now : Nat)
    (m : RawMsg) (mid k : String) (hk : k ≠ mid) :
    lookupA (trackUserMessage lum0 p now m mid).1 k = lookupA lum0 k := by
  cases h0 : lookupA lum0 mid with
  | none => simp [trackUserMessage, h0, lookupA_setA_self, lookupA_setA_ne, hk]
  | some e => simp [trackUserMessage, h0, lookupA_setA_self, lookupA_setA_ne, hk]

theorem any_setA_touch (l : List (String × ConnState)) (p : String) (cs : ConnState)
    (n : Nat) (f : ConnState → Bool) (hf : ∀ c, f { c with lastMessage := n } = f c)
    (h : lookupA l p = some cs) :
    (setA l p { cs with lastMessage := n }).any (fun pr => f pr.2) =
      l.any (fun pr => f pr.2) := by
  induction l with
  | nil => simp [lookupA] at h
  | cons a l ih =>
    by_cases ha : a.1 = p
    · simp only [lookupA, ha, beq_self_eq_true, if_true, Option.some.injEq] at h
      simp only [setA, ha, beq_self_eq_true, if_true, List.any_cons]
      rw [hf cs, h]
    · simp only [lookupA, beq_iff_eq, ha, if_false] at h
      simp only [setA, beq_iff_eq, ha, if_false, List.any_cons, ih h]

theorem isBot_touch (st : SysState) (p q s : String) (n : Nat) :
    isBotMessage (touchLastMessage st p n) q s = isBotMessage st q s := by
  unfold touchLastMessage isBotMessage
  cases h : lookupA st.websocketState p with
  | none => rfl
  | some cs =>
    exact any_setA_touch st.websocketState p cs n
      (fun c => s == c.botName || s == q) (fun c => rfl) h

/-- Fixture: one configured identity with phone "+1", display name "Alice" and
directory uuid "u1". -/
def stC5 : SysState := ⟨[("+1", ⟨some 1, "Alice", true, 0, 0⟩)], [], []⟩

/-- Fixture: the directory lookup for stC5. -/
def gC5 : String → Option String := fun p => if p == "+1" then some "u1" else none

/-- Fixture: a message whose sender identifier is the configured uuid "u1". -/
def msgC5 : RawMsg := ⟨some ⟨some "u1", none, some 7, some ⟨[], none⟩⟩⟩

/-- Fixture: a plain user message from "+U2" with timestamp 7. -/
def msgNoTsC5 : RawMsg := ⟨some ⟨some "+U2", none, some 7, some ⟨[], none⟩⟩⟩

/-- C5 (amended): classification is by display name or the receiving phone, not
by uuid: a message the code classifies as bot-authored never creates or updates
tracking state and never schedules a reconciliation, while a message it
classifies as user-authored that carries a timestamp always records the
receiving identity in the tracked entry for its key. -/
theorem C5_classification (st : SysState) (botPhone : String) (now : Nat)
    (msg : RawMsg) :
    (isBotMessage st botPhone (sourceOf msg) = true →
      (handleMessage st botPhone now (some msg)).1.lastUserMessage = st.lastUserMessage ∧
      ∀ mid, Action.schedule mid ∉ (handleMessage st botPhone now (some msg)).2) ∧
    (isBotMessage st botPhone (sourceOf msg) = false → ∀ t, tsOf msg = some t →
      ∃ e, lookupA (handleMessage st botPhone now (some msg)).1.lastUserMessage
            (sourceOf msg ++ ":" ++ toString t) = some e ∧ botPhone ∈ e.receivedBy) := by
  constructor
  · intro hb
    have hb1 : isBotMessage (touchLastMessage st botPhone now) botPhone (sourceOf msg) = true := by
      rw [isBot_touch]; exact hb
    cases ht : tsOf msg with
    | none =>
      refine ⟨?_, ?_⟩
      · simp [handleMessage, ht, touch_lum]
      · intro mid
        simp [handleMessage, ht]
    | some t =>
      refine ⟨?_, ?_⟩
      · simp [handleMessage, ht, hb1, touch_lum]
      · intro mid
        simp [handleMessage, ht, hb1]
  · intro hb t ht
    have hb1 : isBotMessage (touchLastMessage st botPhone now) botPhone (sourceOf msg) = false := by
      rw [isBot_touch]; exact hb
    simp only [handleMessage, ht, hb1, Bool.false_eq_true, if_false]
    cases h0 : lookupA (touchLastMessage st botPhone now).lastUserMessage
        (sourceOf msg ++ ":" ++ toString t) with
    | none =>
      refine ⟨⟨now, [botPhone], true, msg, mentionedUuidsOf msg⟩, ?_, ?_⟩
      · exact (track_new _ botPhone now msg _ h0).1
      · exact List.mem_singleton_self botPhone
    | some e =>
      refine ⟨{ e with receivedBy := insertUniq e.receivedBy botPhone }, ?_, ?_⟩
      · exact (track_old _ botPhone now msg _ e h0).1
      · exact self_mem_insertUniq e.receivedBy botPhone

theorem C5_classification_witness :
    ∃ e, lookupA (handleMessage stC5 "+2" 5 (some msgNoTsC5)).1.lastUserMessage
          "+U2:7" = some e ∧ "+2" ∈ e.receivedBy :=
  (C5_classification stC5 "+2" 5 msgNoTsC5).2 (by decide) 7 (by decide)

/-- C5 counterexample: with identity phone "+1", display name "Alice", uuid "u1":
the code classifies a message whose sender is the display name "Alice" as
bot-authored although neither the identifier nor the uuid of any identity is
"Alice"; it classifies a message whose sender is the uuid "u1" as user-authored
although "u1" is a configured identity uuid, and consequently tracks that
bot-authored message (creating a TrackedMessage for it). -/
theorem C5_classification_counterexample :
    isBotMessage stC5 "+1" "Alice" = true ∧
    isBotMessageSpec stC5 gC5 "Alice" = false ∧
    isBotMessage stC5 "+1" "u1" = false ∧
    isBotMessageSpec stC5 gC5 "u1" = true ∧
    lookupA (handleMessage stC5 "+1" 5 (some msgC5)).1.lastUserMessage "u1:7" =
      some ⟨5, ["+1"], true, msgC5, []⟩ := by decide

/-- Fixture: disconnected identity with exhausted retry budget. -/
def stC7 : SysState := ⟨[("p", ⟨some 1, "P", false, 0, 3⟩)], [], []⟩

/-- Fixture for the onOpen witness: disconnected identity with one queued replay. -/
def stC7w : SysState := ⟨[("q", ⟨some 1, "Q", false, 3, 2⟩)], [], [("q", [msgNoTs])]⟩

/-- C7 (amended): a successful open sets connected, refreshes lastMessage, zeroes
retryCount, and drains the replay queue atomically — the emitted Dispatcher
calls are exactly the queued payloads in original enqueue order with
isFirstReceiver = false, and the queue is empty afterwards. Between successes,
any non-open event leaves retryCount unchanged or increments it, except the
reset to zero that abandons the cycle once the attempt budget
MAX_RECONNECT_RETRIES is exhausted. -/
theorem C7_on_open (st : SysState) (phone : String) (now : Nat) (cs : ConnState)
    (hl : lookupA st.websocketState phone = some cs) :
    (lookupA (onOpen st phone now).1.websocketState phone =
      some { cs with connected := true, lastMessage := now, retryCount := 0 }) ∧
    ((onOpen st phone now).2 =
      (queueOf st phone).map (fun m => Action.process m phone false)) ∧
    (queueOf (onOpen st phone now).1 phone = []) ∧
    (∀ e : Ev, (∀ n, e ≠ Ev.evOpen n) →
      retryCountOf (stepEv st phone e).1 phone = retryCountOf st phone ∨
      retryCountOf (stepEv st phone e).1 phone = retryCountOf st phone + 1 ∨
      (retryCountOf (stepEv st phone e).1 phone = 0 ∧
       MAX_RECONNECT_RETRIES ≤ retryCountOf st phone)) := by
  have hrc : retryCountOf st phone = cs.retryCount := by simp [retryCountOf, hl]
  have hws : (onOpen st phone now).1.websocketState =
      setA st.websocketState phone
        { cs with connected := true, lastMessage := now, retryCount := 0 } := by
    simp only [onOpen, hl]
    cases hp : lookupA st.pendingMessages phone with
    | none => simp [hp]
    | some msgs => by_cases hlen : 0 < msgs.length <;> simp [hp, hlen]
  refine ⟨?_, ?_, ?_, ?_⟩
  · rw [hws, lookupA_setA_self]
  · simp only [onOpen, hl, queueOf]
    cases hp : lookupA st.pendingMessages phone with
    | none => simp [hp]
    | some msgs =>
      by_cases hlen : 0 < msgs.length
      · simp [hp, hlen]
      · have : msgs = [] := List.length_eq_zero.mp (Nat.eq_zero_of_not_pos hlen)
        simp [hp, hlen, this]
  · simp only [onOpen, hl, queueOf]
    cases hp : lookupA st.pendingMessages phone with
    | none => simp [hp]
    | some msgs =>
      by_cases hlen : 0 < msgs.length
      · simp [hp, hlen, lookupA_setA_self]
      · have : msgs = [] := List.length_eq_zero.mp (Nat.eq_zero_of_not_pos hlen)
        simp [hp, hlen, this]
  · intro e he
    cases e with
    | evOpen n => exact absurd rfl (he n)
    | evClose =>
      left
      simp [stepEv, onClose, hl, retryCountOf, lookupA_setA_self]
    | evError =>
      left
      simp [stepEv, onError, hl, retryCountOf, lookupA_setA_self]
    | evReconnect hdl =>
      by_cases hc : cs.connected
      · left
        simp [stepEv, reconnectWebSocket, hl, hc]
      · by_cases hr : MAX_RECONNECT_RETRIES ≤ cs.retryCount
        · right; right
          constructor
          · simp [stepEv, reconnectWebSocket, hl, hc, hr, retryCountOf, lookupA_setA_self]
          · rw [hrc]; exact hr
        · right; left
          simp [stepEv, reconnectWebSocket, hl, hc, hr, retryCountOf, lookupA_setA_self]
    | evMessage n d =>
      left
      have : (handleMessage st phone n d).1.websocketState =
          (touchLastMessage st phone n).websocketState := handleMessage_websocketState st phone n d
      have h2 : retryCountOf (handleMessage st phone n d).1 phone =
          retryCountOf (touchLastMessage st phone n) phone := by
        unfold retryCountOf
        rw [this]
      rw [stepEv, h2, retryCountOf_touch]

theorem C7_on_open_witness :
    lookupA (onOpen stC7w "q" 50).1.websocketState "q" = some ⟨some 1, "Q", true, 50, 0⟩ ∧
    (onOpen stC7w "q" 50).2 = [Action.process msgNoTs "q" false] ∧
    queueOf (onOpen stC7w "q" 50).1 "q" = [] := by
  have h := C7_on_open stC7w "q" 50 ⟨some 1, "Q", false, 3, 2⟩ (by decide)
  exact ⟨h.1, h.2.1.trans (by decide), h.2.2.1⟩

/-- C7 counterexample: retryCount can decrease between successes: from a
disconnected state with retryCount 3, a fired reconnect timer (not a successful
open) resets the counter to 0 and emits no action at all. -/
theorem C7_on_open_counterexample :
    retryCountOf stC7 "p" = 3 ∧
    stepEv stC7 "p" (Ev.evReconnect 5) =
      ({ stC7 with websocketState := [("p", ⟨some 1, "P", false, 0, 0⟩)] }, []) := by decide

/-- The one-shot scheduling invariant for key k: either the key is untracked and
n schedule actions for it have been emitted so far with n = 0, or it is tracked
with the checkScheduled flag set and exactly one schedule has been emitted. -/
def OneShotInv (lum : List (String × TrackedMsg)) (k : String) (n : Nat) : Prop :=
  (lookupA lum k = none ∧ n = 0) ∨
  (∃ e, lookupA lum k = some e ∧ e.checkScheduled = true ∧ n = 1)

theorem count_schedule_process (k : String) (m : RawMsg) (p : String) (b : Bool) :
    List.count (Action.schedule k) [Action.process m p b] = 0 := by
  simp [List.count_cons]

theorem count_schedule_pair (k : String) (m : RawMsg) (p : String) (b : Bool) :
    List.count (Action.schedule k) [Action.schedule k, Action.process m p b] = 1 := by
  simp [List.count_cons]

theorem count_schedule_other (k mid : String) (m : RawMsg) (p : String) (b : Bool)
    (h : mid ≠ k) :
    List.count (Action.schedule k) [Action.schedule mid, Action.process m p b] = 0 := by
  simp [List.count_cons, h]

theorem track_acts (lum0 : List (String × TrackedMsg)) (p : String) (now : Nat)
    (m : RawMsg) (mid : String) :
    (trackUserMessage lum0 p now m mid).2.2 = [] ∨
    (trackUserMessage lum0 p now m mid).2.2 = [Action.schedule mid] := by
  cases h0 : lookupA lum0 mid with
  | none => exact Or.inr (by rw [(track_new lum0 p now m mid h0).2])
  | some e => exact Or.inl (by rw [(track_old lum0 p now m mid e h0).2])

theorem handle_oneShot (k : String) (st : SysState) (p : String) (now : Nat)
    (d : Option RawMsg) (n : Nat) (h : OneShotInv st.lastUserMessage k n) :
    OneShotInv (handleMessage st p now d).1.lastUserMessage k
      (n + (handleMessage st p now d).2.count (Action.schedule k)) := by
  cases d with
  | none => simpa [handleMessage, touch_lum] using h
  | some m =>
    cases ht : tsOf m with
    | none =>
      simp only [handleMessage, ht]
      simpa [touch_lum, count_schedule_process] using h
    | some t =>
      by_cases hb : isBotMessage (touchLastMessage st p now) p (sourceOf m)
      · simp only [handleMessage, ht, hb, if_true]
        simpa [touch_lum, count_schedule_process] using h
      · simp only [handleMessage, ht, hb, Bool.false_eq_true, if_false]
        set mid := sourceOf m ++ ":" ++ toString t with hmiddef
        by_cases hmid : k = mid
        · subst hmid
          rcases h with ⟨hnone, hn⟩ | ⟨e, he, hflag, hn⟩
          · have h0 : lookupA (touchLastMessage st p now).lastUserMessage mid = none := by
              rw [touch_lum]; exact hnone
            have hnew := track_new (touchLastMessage st p now).lastUserMessage p now m mid h0
            refine Or.inr ⟨⟨now, [p], true, m, mentionedUuidsOf m⟩, ?_, rfl, ?_⟩
            · exact hnew.1
            · rw [hnew.2, hn]
              simp [List.count_append, List.count_cons]
          · have h0 : lookupA (touchLastMessage st p now).lastUserMessage mid = some e := by
              rw [touch_lum]; exact he
            have hold := track_old (touchLastMessage st p now).lastUserMessage p now m mid e h0
            refine Or.inr ⟨{ e with receivedBy := insertUniq e.receivedBy p }, ?_, hflag, ?_⟩
            · exact hold.1
            · rw [hold.2, hn]
              simp [List.count_cons]
        · have hpres : lookupA (trackUserMessage (touchLastMessage st p now).lastUserMessage
              p now m mid).1 k = lookupA st.lastUserMessage k := by
            rw [track_other _ _ _ _ _ _ hmid, touch_lum]
          have hcnt : (trackUserMessage (touchLastMessage st p now).lastUserMessage
              p now m mid).2.2.count (Action.schedule k) = 0 := by
            rcases track_acts (touchLastMessage st p now).lastUserMessage p now m mid with
              ha | ha
            · rw [ha]; rfl
            · rw [ha]
              have hmidne : ¬mid = k := fun hh => hmid hh.symm
              simp [List.count_cons, hmidne]
          rcases h with ⟨hnone, hn⟩ | ⟨e, he, hflag, hn⟩
          · refine Or.inl ⟨by rw [hpres]; exact hnone, ?_⟩
            rw [List.count_append, hcnt, count_schedule_process, hn]
          · refine Or.inr ⟨e, by rw [hpres]; exact he, hflag, ?_⟩
            rw [List.count_append, hcnt, count_schedule_process, hn]

theorem runHandlers_oneShot (k : String) :
    ∀ (evs : List (String × Nat × Option RawMsg)) (st : SysState) (n : Nat),
    OneShotInv st.lastUserMessage k n →
    OneShotInv (runHandlers st evs).1.lastUserMessage k
      (n + (runHandlers st evs).2.count (Action.schedule k)) := by
  intro evs
  induction evs with
  | nil => intro st n h; simpa [runHandlers] using h
  | cons e evs ih =>
    intro st n h
    simp only [runHandlers, List.count_append]
    have h1 := handle_oneShot k st e.1 e.2.1 e.2.2 n h
    have h2 := ih (handleMessage st e.1 e.2.1 e.2.2).1 _ h1
    rw [← Nat.add_assoc]
    exact h2

/-- C6: starting from any state in which the key is untracked, any sequence of
handler invocations emits at most one reconciliation-scheduling action for that
key, and exactly one as soon as the key has become tracked — the one-shot
checkScheduled flag prevents duplicate scheduling even for near-simultaneous
first sightings from different identities. -/
theorem C6_single_schedule (st : SysState) (k : String)
    (h0 : lookupA st.lastUserMessage k = none)
    (evs : List (String × Nat × Option RawMsg)) :
    (runHandlers st evs).2.count (Action.schedule k) ≤ 1 ∧
    ((lookupA (runHandlers st evs).1.lastUserMessage k).isSome = true →
      (runHandlers st evs).2.count (Action.schedule k) = 1) := by
  have h := runHandlers_oneShot k evs st 0 (Or.inl ⟨h0, rfl⟩)
  rcases h with ⟨hn, hc⟩ | ⟨e, he, hflag, hc⟩
  · rw [Nat.zero_add] at hc
    refine ⟨by rw [hc]; exact Nat.zero_le 1, ?_⟩
    intro hs
    rw [hn] at hs
    simp at hs
  · rw [Nat.zero_add] at hc
    exact ⟨le_of_eq hc, fun _ => hc⟩

/-- Fixture: two connected identities, nothing tracked. -/
def stC6 : SysState :=
  ⟨[("+B1", ⟨some 1, "B1", true, 0, 0⟩), ("+B2", ⟨some 2, "B2", true, 0, 0⟩)], [], []⟩

/-- Fixture: a user message from "+U" with timestamp 9, seen by both identities. -/
def msgC6 : RawMsg := ⟨some ⟨some "+U", none, some 9, some ⟨[], none⟩⟩⟩

theorem C6_single_schedule_witness :
    (runHandlers stC6 [("+B1", 5, some msgC6), ("+B2", 6, some msgC6)]).2.count
      (Action.schedule "+U:9") = 1 := by
  have h := C6_single_schedule stC6 "+U:9" (by decide)
    [("+B1", 5, some msgC6), ("+B2", 6, some msgC6)]
  exact h.2 (by decide)

theorem reconnect_lum (st : SysState) (p : String) (h : Nat) :
    (reconnectWebSocket st p h).1.lastUserMessage = st.lastUserMessage := by
  unfold reconnectWebSocket
  cases hc : lookupA st.websocketState p with
  | none => rfl
  | some cs =>
    by_cases h1 : cs.connected
    · simp [h1]
    · by_cases h2 : MAX_RECONNECT_RETRIES ≤ cs.retryCount <;> simp [h1, h2]

theorem sweepStep_lum (now : Nat) (acc : SysState × List Action)
    (entry : String × ConnState) :
    (sweepStep now acc entry).1.lastUserMessage = acc.1.lastUserMessage := by
  unfold sweepStep
  split
  · exact reconnect_lum acc.1 entry.1 0
  · rfl

theorem sweepFold_lum (now : Nat) :
    ∀ (L : List (String × ConnState)) (st : SysState) (acc : List Action),
    (L.foldl (sweepStep now) (st, acc)).1.lastUserMessage = st.lastUserMessage := by
  intro L
  induction L with
  | nil => intro st acc; rfl
  | cons a L ih =>
    intro st acc
    simp only [List.foldl_cons]
    have h1 := sweepStep_lum now (st, acc) a
    have h2 := ih (sweepStep now (st, acc) a).1 (sweepStep now (st, acc) a).2
    exact h2.trans h1

/-- C8: one health-sweep tick keeps exactly the tracked messages whose age is
within the retention window and removes all older ones regardless of any other
field (the filter consults only the creation time), and a reconciliation that
fires for a key whose tracked entry no longer exists is a harmless no-op: the
state is returned unchanged and no action is emitted. -/
theorem C8_gc_and_stale_noop (g : String → Option String) (st : SysState)
    (now : Nat) (k : String) :
    ((healthSweep st now).1.lastUserMessage =
      st.lastUserMessage.filter
        (fun pr => !(decide (TRACKING_RETENTION_MS < now - pr.2.timestamp)))) ∧
    (lookupA st.lastUserMessage k = none →
      checkMessageConsistency g st k = (st, [])) := by
  constructor
  · exact sweepFold_lum now _ _ _
  · intro h
    simp [checkMessageConsistency, h]

/-- Fixture: one expired and one fresh tracked message at sweep time 400000. -/
def stC8 : SysState :=
  ⟨[], [("old", ⟨0, [], true, msgNoTs, []⟩), ("new", ⟨200000, [], false, msgNoTs, []⟩)], []⟩

theorem C8_gc_and_stale_noop_witness :
    (healthSweep stC8 400000).1.lastUserMessage =
      [("new", ⟨200000, [], false, msgNoTs, []⟩)] ∧
    checkMessageConsistency (fun _ => none) stC8 "absent" = (stC8, []) := by
  have h := C8_gc_and_stale_noop (fun _ => none) stC8 400000 "absent"
  exact ⟨h.1.trans (by decide), h.2 (by decide)⟩

/-- The identity has a websocket entry whose handle is present. -/
def wsPresent (st : SysState) (p : String) : Prop :=
  ∃ cs, lookupA st.websocketState p = some cs ∧ cs.ws.isSome = true

/-- The action block the reconnection loop emits for each phone in order. -/
def blockActs (d : RawMsg) : List String → List Action
  | [] => []
  | p :: L => Action.enqueueReplay p d :: Action.forceReconnect p :: blockActs d L

theorem nodup_foldl_resolve (look : String → Option String) (missing : List String) :
    ∀ (U acc : List String), acc.Nodup →
    (U.foldl (fun a u =>
      match look u with
      | some p => if missing.contains p then insertUniq a p else a
      | none => a) acc).Nodup := by
  intro U
  induction U with
  | nil => intro acc h; exact h
  | cons u U ih =>
    intro acc h
    simp only [List.foldl_cons]
    cases hl : look u with
    | none => exact ih acc h
    | some p =>
      cases hc : missing.contains p
      · simp only [hc, Bool.false_eq_true, if_false]
        exact ih acc h
      · simp only [hc, if_true]
        exact ih _ (insertUniq_nodup acc p h)

theorem mem_foldl_resolve (look : String → Option String) (missing : List String) :
    ∀ (U acc : List String) (x : String),
    x ∈ U.foldl (fun a u =>
      match look u with
      | some p => if missing.contains p then insertUniq a p else a
      | none => a) acc → x ∈ acc ∨ x ∈ missing := by
  intro U
  induction U with
  | nil => intro acc x h; exact Or.inl h
  | cons u U ih =>
    intro acc x h
    simp only [List.foldl_cons] at h
    cases hl : look u with
    | none =>
      simp only [hl] at h
      exact ih acc x h
    | some p =>
      simp only [hl] at h
      cases hc : missing.contains p
      · simp only [hc, Bool.false_eq_true, if_false] at h
        exact ih acc x h
      · simp only [hc, if_true] at h
        rcases ih _ x h with hx | hx
        · rcases (mem_insertUniq acc p x).mp hx with hx' | hx'
          · exact Or.inl hx'
          · subst hx'
            exact Or.inr (by simpa using hc)
        · exact Or.inr hx

theorem step_pending (d : RawMsg) (acc : SysState × List Action) (q : String) :
    (reconnectMissingStep d acc q).1.pendingMessages =
      setA acc.1.pendingMessages q (queueOf acc.1 q ++ [d]) := by
  simp only [reconnectMissingStep, queueOf]
  cases h : lookupA acc.1.websocketState q with
  | none => rfl
  | some cs => cases hw : cs.ws <;> simp [h, hw]

theorem step_queueOf (d : RawMsg) (acc : SysState × List Action) (q p : String) :
    queueOf (reconnectMissingStep d acc q).1 p =
      if p = q then queueOf acc.1 p ++ [d] else queueOf acc.1 p := by
  by_cases hpq : p = q
  · subst hpq
    simp [queueOf, step_pending, lookupA_setA_self]
  · simp [queueOf, step_pending, lookupA_setA_ne _ _ _ _ hpq, hpq]

theorem step_wsState (d : RawMsg) (acc : SysState × List Action) (q : String) :
    (reconnectMissingStep d acc q).1.websocketState = acc.1.websocketState ∨
    ∃ cs, lookupA acc.1.websocketState q = some cs ∧
      (reconnectMissingStep d acc q).1.websocketState =
        setA acc.1.websocketState q { cs with connected := false } := by
  simp only [reconnectMissingStep]
  cases h : lookupA acc.1.websocketState q with
  | none => exact Or.inl rfl
  | some cs =>
    cases hw : cs.ws with
    | none => exact Or.inl (by simp [hw])
    | some w => exact Or.inr ⟨cs, rfl, by simp [hw]⟩

theorem step_wsPresent (d : RawMsg) (acc : SysState × List Action) (q p : String)
    (h : wsPresent acc.1 p) : wsPresent (reconnectMissingStep d acc q).1 p := by
  obtain ⟨cs, hcs, hws⟩ := h
  rcases step_wsState d acc q with heq | ⟨cq, hcq, heq⟩
  · exact ⟨cs, by rw [heq]; exact hcs, hws⟩
  · by_cases hpq : p = q
    · subst hpq
      rw [hcs] at hcq
      obtain rfl : cs = cq := by injection hcq
      exact ⟨{ cs with connected := false }, by rw [heq, lookupA_setA_self], hws⟩
    · exact ⟨cs, by rw [heq, lookupA_setA_ne _ _ _ _ hpq]; exact hcs, hws⟩

theorem step_acts (d : RawMsg) (acc : SysState × List Action) (q : String)
    (h : wsPresent acc.1 q) :
    (reconnectMissingStep d acc q).2 =
      acc.2 ++ [Action.enqueueReplay q d, Action.forceReconnect q] := by
  obtain ⟨cs, hcs, hws⟩ := h
  obtain ⟨w, hw⟩ := Option.isSome_iff_exists.mp hws
  simp [reconnectMissingStep, hcs, hw]

theorem foldl_step_acts (d : RawMsg) :
    ∀ (L : List String) (st : SysState) (acc : List Action),
    (∀ p ∈ L, wsPresent st p) →
    (L.foldl (reconnectMissingStep d) (st, acc)).2 = acc ++ blockActs d L := by
  intro L
  induction L with
  | nil => intro st acc _; simp [blockActs]
  | cons q L ih =>
    intro st acc h
    simp only [List.foldl_cons]
    have hq := h q (List.mem_cons_self q L)
    have hacts := step_acts d (st, acc) q hq
    have hpres : ∀ p ∈ L, wsPresent (reconnectMissingStep d (st, acc) q).1 p :=
      fun p hp => step_wsPresent d (st, acc) q p (h p (List.mem_cons_of_mem q hp))
    have h2 : (L.foldl (reconnectMissingStep d) (reconnectMissingStep d (st, acc) q)).2 =
        (reconnectMissingStep d (st, acc) q).2 ++ blockActs d L :=
      ih (reconnectMissingStep d (st, acc) q).1 (reconnectMissingStep d (st, acc) q).2 hpres
    rw [h2, hacts, blockActs]
    simp

theorem foldl_step_queue_notmem (d : RawMsg) :
    ∀ (L : List String) (st : SysState) (acc : List Action) (p : String), p ∉ L →
    queueOf (L.foldl (reconnectMissingStep d) (st, acc)).1 p = queueOf st p := by
  intro L
  induction L with
  | nil => intro st acc p _; rfl
  | cons q L ih =>
    intro st acc p h
    simp only [List.foldl_cons]
    have hpq : p ≠ q := fun hh => h (hh ▸ List.mem_cons_self q L)
    have h1 := step_queueOf d (st, acc) q p
    rw [if_neg hpq] at h1
    have h2 : queueOf (L.foldl (reconnectMissingStep d) (reconnectMissingStep d (st, acc) q)).1 p =
        queueOf (reconnectMissingStep d (st, acc) q).1 p :=
      ih (reconnectMissingStep d (st, acc) q).1 (reconnectMissingStep d (st, acc) q).2 p
        (fun hp => h (List.mem_cons_of_mem q hp))
    exact h2.trans h1

theorem foldl_step_queue_mem (d : RawMsg) :
    ∀ (L : List String) (st : SysState) (acc : List Action) (p : String),
    L.Nodup → p ∈ L →
    queueOf (L.foldl (reconnectMissingStep d) (st, acc)).1 p = queueOf st p ++ [d] := by
  intro L
  induction L with
  | nil => intro st acc p _ h; simp at h
  | cons q L ih =>
    intro st acc p hnd hp
    simp only [List.foldl_cons]
    have hndq : q ∉ L := (List.nodup_cons.mp hnd).1
    have hndL : L.Nodup := (List.nodup_cons.mp hnd).2
    by_cases hpq : p = q
    · subst hpq
      have h2 : queueOf (L.foldl (reconnectMissingStep d) (reconnectMissingStep d (st, acc) p)).1 p =
          queueOf (reconnectMissingStep d (st, acc) p).1 p :=
        foldl_step_queue_notmem d L (reconnectMissingStep d (st, acc) p).1
          (reconnectMissingStep d (st, acc) p).2 p hndq
      have h1 := step_queueOf d (st, acc) p p
      rw [if_pos rfl] at h1
      exact h2.trans h1
    · rcases List.mem_cons.mp hp with h | h
      · exact absurd h hpq
      · have h1 := step_queueOf d (st, acc) q p
        rw [if_neg hpq] at h1
        have h2 : queueOf (L.foldl (reconnectMissingStep d) (reconnectMissingStep d (st, acc) q)).1 p =
            queueOf (reconnectMissingStep d (st, acc) q).1 p ++ [d] :=
          ih (reconnectMissingStep d (st, acc) q).1 (reconnectMissingStep d (st, acc) q).2 p hndL h
        exact h2.trans (by rw [h1])

theorem count_blockActs_enq (d : RawMsg) (p : String) : ∀ L : List String,
    (blockActs d L).count (Action.enqueueReplay p d) = L.count p := by
  intro L
  induction L with
  | nil => rfl
  | cons q L ih =>
    by_cases h : q = p
    · subst h
      simp [blockActs, List.count_cons, ih]
    · simp [blockActs, List.count_cons, ih, h]

theorem count_blockActs_rec (d : RawMsg) (p : String) : ∀ L : List String,
    (blockActs d L).count (Action.forceReconnect p) = L.count p := by
  intro L
  induction L with
  | nil => rfl
  | cons q L ih =>
    by_cases h : q = p
    · subst h
      simp [blockActs, List.count_cons, ih]
    · simp [blockActs, List.count_cons, ih, h]

theorem count_blockActs_enq_zero (d d2 : RawMsg) (p : String) : ∀ L : List String,
    p ∉ L → (blockActs d L).count (Action.enqueueReplay p d2) = 0 := by
  intro L
  induction L with
  | nil => intro _; rfl
  | cons q L ih =>
    intro h
    have hq : ¬q = p := fun hh => h (hh ▸ List.mem_cons_self q L)
    simp [blockActs, List.count_cons, ih (fun hp => h (List.mem_cons_of_mem q hp)), hq]

theorem wsPresent_of_mem_keys (st : SysState)
    (hWs : ∀ pr ∈ st.websocketState, pr.2.ws.isSome = true) (p : String)
    (hp : p ∈ allBotsOf st) : wsPresent st p := by
  have hs := lookupA_isSome_of_mem_keys st.websocketState p hp
  obtain ⟨cs, hcs⟩ := Option.isSome_iff_exists.mp hs
  exact ⟨cs, hcs, hWs (p, cs) (mem_of_lookupA_eq_some _ _ _ hcs)⟩

theorem mem_M_missing (g : String → Option String) (st : SysState)
    (msgData : TrackedMsg) (p : String)
    (hp : p ∈ mentionedMissingBotsOf g st msgData) :
    p ∈ missingBotsOf st msgData := by
  have h := mem_foldl_resolve (fun u => lookupA (botUuidToPhoneOf g st) u)
    (missingBotsOf st msgData) msgData.mentionedBotUuids [] p hp
  rcases h with h | h
  · simp at h
  · exact h

theorem M_nodup (g : String → Option String) (st : SysState) (msgData : TrackedMsg) :
    (mentionedMissingBotsOf g st msgData).Nodup :=
  nodup_foldl_resolve (fun u => lookupA (botUuidToPhoneOf g st) u)
    (missingBotsOf st msgData) msgData.mentionedBotUuids [] List.nodup_nil

/-- C1: when a reconciliation runs for a tracked message (every configured
identity having a live handle): if no identity is missing, nothing happens (state
unchanged, no actions); otherwise exactly the identities that are both missing
and addressed get the payload enqueued once into their replay queue and one
forced reconnect, every other identity gets zero enqueues, zero reconnects and an
untouched queue, and a message addressed to no one triggers zero reconnects. -/
theorem C1_reconcile (g : String → Option String) (st : SysState) (mid : String)
    (msgData : TrackedMsg)
    (hLook : lookupA st.lastUserMessage mid = some msgData)
    (hWs : ∀ pr ∈ st.websocketState, pr.2.ws.isSome = true) :
    (missingBotsOf st msgData = [] → checkMessageConsistency g st mid = (st, [])) ∧
    (∀ p, p ∈ mentionedMissingBotsOf g st msgData →
      (checkMessageConsistency g st mid).2.count (Action.enqueueReplay p msgData.data) = 1 ∧
      (checkMessageConsistency g st mid).2.count (Action.forceReconnect p) = 1 ∧
      queueOf (checkMessageConsistency g st mid).1 p = queueOf st p ++ [msgData.data]) ∧
    (∀ p, p ∉ mentionedMissingBotsOf g st msgData →
      (∀ d, (checkMessageConsistency g st mid).2.count (Action.enqueueReplay p d) = 0) ∧
      (checkMessageConsistency g st mid).2.count (Action.forceReconnect p) = 0 ∧
      queueOf (checkMessageConsistency g st mid).1 p = queueOf st p) ∧
    (msgData.mentionedBotUuids = [] →
      ∀ p, (checkMessageConsistency g st mid).2.count (Action.forceReconnect p) = 0) := by
  by_cases hm : 0 < (missingBotsOf st msgData).length
  · by_cases hMM : 0 < (mentionedMissingBotsOf g st msgData).length
    · have hred : checkMessageConsistency g st mid =
          (mentionedMissingBotsOf g st msgData).foldl
            (reconnectMissingStep msgData.data) (st, []) := by
        simp [checkMessageConsistency, hLook, hm, hMM]
      have hwsAll : ∀ p ∈ mentionedMissingBotsOf g st msgData, wsPresent st p := by
        intro p hp
        exact wsPresent_of_mem_keys st hWs p
          (List.mem_of_mem_filter (mem_M_missing g st msgData p hp))
      have hacts : (checkMessageConsistency g st mid).2 =
          blockActs msgData.data (mentionedMissingBotsOf g st msgData) := by
        rw [hred]
        exact (foldl_step_acts msgData.data
          (mentionedMissingBotsOf g st msgData) st [] hwsAll).trans (List.nil_append _)
      refine ⟨?_, ?_, ?_, ?_⟩
      · intro h0
        rw [h0] at hm
        simp at hm
      · intro p hp
        refine ⟨?_, ?_, ?_⟩
        · rw [hacts, count_blockActs_enq]
          exact List.count_eq_one_of_mem (M_nodup g st msgData) hp
        · rw [hacts, count_blockActs_rec]
          exact List.count_eq_one_of_mem (M_nodup g st msgData) hp
        · rw [hred]
          exact foldl_step_queue_mem msgData.data _ st [] p (M_nodup g st msgData) hp
      · intro p hp
        refine ⟨?_, ?_, ?_⟩
        · intro d
          rw [hacts]
          exact count_blockActs_enq_zero msgData.data d p _ hp
        · rw [hacts, count_blockActs_rec]
          exact List.count_eq_zero_of_not_mem hp
        · rw [hred]
          exact foldl_step_queue_notmem msgData.data _ st [] p hp
      · intro huu p
        exfalso
        have hMnil : mentionedMissingBotsOf g st msgData = [] := by
          unfold mentionedMissingBotsOf
          rw [huu]
          rfl
        rw [hMnil] at hMM
        simp at hMM
    · have hred : checkMessageConsistency g st mid = (st, []) := by
        simp [checkMessageConsistency, hLook, hm, hMM]
      refine ⟨fun _ => hred, ?_, ?_, ?_⟩
      · intro p hp
        exact absurd (List.length_pos_of_mem hp) hMM
      · intro p hp
        rw [hred]
        exact ⟨fun d => rfl, rfl, rfl⟩
      · intro _ p
        rw [hred]
        rfl
  · have hred : checkMessageConsistency g st mid = (st, []) := by
      simp [checkMessageConsistency, hLook, hm]
    refine ⟨fun _ => hred, ?_, ?_, ?_⟩
    · intro p hp
      exact absurd (List.length_pos_of_mem (mem_M_missing g st msgData p hp)) hm
    · intro p hp
      rw [hred]
      exact ⟨fun d => rfl, rfl, rfl⟩
    · intro _ p
      rw [hred]
      rfl

/-- Fixture: directory lookup resolving only "+B2" to uuid "u2". -/
def gC1 : String → Option String := fun p => if p == "+B2" then some "u2" else none

/-- Fixture: a user message from "+100" at timestamp 1700000000 mentioning "u2". -/
def msgC1 : RawMsg := ⟨some ⟨some "+100", none, some 1700000000, some ⟨[some "u2"], none⟩⟩⟩

/-- Fixture: the tracked entry for the message, received by B1 and B3 only. -/
def trkC1 : TrackedMsg := ⟨10, ["+B1", "+B3"], true, msgC1, ["u2"]⟩

/-- Fixture: three connected identities and the tracked message. -/
def stC1w : SysState :=
  ⟨[("+B1", ⟨some 1, "B1", true, 0, 0⟩), ("+B2", ⟨some 2, "B2", true, 0, 0⟩),
    ("+B3", ⟨some 3, "B3", true, 0, 0⟩)],
   [("+100:1700000000", trkC1)], []⟩

theorem C1_reconcile_witness :
    (checkMessageConsistency gC1 stC1w "+100:1700000000").2.count
      (Action.enqueueReplay "+B2" msgC1) = 1 ∧
    (checkMessageConsistency gC1 stC1w "+100:1700000000").2.count
      (Action.forceReconnect "+B2") = 1 ∧
    queueOf (checkMessageConsistency gC1 stC1w "+100:1700000000").1 "+B2" = [msgC1] ∧
    (checkMessageConsistency gC1 stC1w "+100:1700000000").2.count
      (Action.forceReconnect "+B1") = 0 ∧
    (checkMessageConsistency gC1 stC1w "+100:1700000000").2.count
      (Action.forceReconnect "+B3") = 0 := by
  have h := C1_reconcile gC1 stC1w "+100:1700000000" trkC1 (by decide) (by decide)
  have h2 := h.2.1 "+B2" (by decide)
  have h1 := h.2.2.1 "+B1" (by decide)
  have h3 := h.2.2.1 "+B3" (by decide)
  exact ⟨h2.1, h2.2.1, h2.2.2.trans (by decide), h1.2.1, h3.2.1⟩

end SignalBots
